import Mathlib

/-!
Shallow embedding of the ERP shell in `src/App.tsx` (analytics engine,
role/routing gate, transaction-commit handler) and proofs about it.

Modelling conventions:
* JavaScript numbers are modelled as `ℚ`; `Date` timestamps (ms since the
  epoch, as produced by `Date.getTime()`) as `ℤ`.
* A JS object used as a string-keyed map (`Record<string, number>`) is an
  association list; spread-update `{...r, [k]: v}` prepends the new binding
  and lookup takes the first match, with `r[k] || 0` reading 0 for a
  missing key.
* `Math.min(...xs)` over a spread array is `minOfList`; the `[]` case
  (JS `Infinity`) is unreachable at every call site and mapped to a junk
  default.
-/

/-- Read `r[k] || 0` from a JS string-keyed number map. -/
def recGet (r : List (String × ℚ)) (k : String) : ℚ :=
  (r.lookup k).getD 0

/-- Spread-update `{...r, [k]: v}`: the new binding shadows older ones. -/
def recSet (r : List (String × ℚ)) (k : String) (v : ℚ) : List (String × ℚ) :=
  (k, v) :: r

theorem recGet_recSet_self (r : List (String × ℚ)) (k : String) (v : ℚ) :
    recGet (recSet r k v) k = v := by
  simp [recGet, recSet, List.lookup]

theorem recGet_recSet_ne (r : List (String × ℚ)) (k k' : String) (v : ℚ)
    (h : k' ≠ k) : recGet (recSet r k v) k' = recGet r k' := by
  have h2 : (k' == k) = false := beq_eq_false_iff_ne.mpr h
  simp [recGet, recSet, List.lookup, h2]

/-- Math.min over a spread list; `d` replaces JS `Infinity` on `[]`,
which no call site reaches. -/
def minOfList {α : Type} [LinearOrder α] (d : α) : List α → α
  | [] => d
  | x :: xs => xs.foldl min x

theorem foldl_min_le_init {α : Type} [LinearOrder α] :
    ∀ (xs : List α) (a : α), xs.foldl min a ≤ a := by
  intro xs
  induction xs with
  | nil => intro a; exact le_refl a
  | cons x xs ih => intro a; exact le_trans (ih (min a x)) (min_le_left a x)

theorem foldl_min_le_mem {α : Type} [LinearOrder α] :
    ∀ (xs : List α) (a y : α), y ∈ xs → xs.foldl min a ≤ y := by
  intro xs
  induction xs with
  | nil => intro a y h; cases h
  | cons x xs ih =>
    intro a y h
    rcases List.mem_cons.mp h with rfl | h2
    · exact le_trans (foldl_min_le_init xs (min a y)) (min_le_right a y)
    · exact ih (min a x) y h2

theorem foldl_min_eq_or_mem {α : Type} [LinearOrder α] :
    ∀ (xs : List α) (a : α), xs.foldl min a = a ∨ xs.foldl min a ∈ xs := by
  intro xs
  induction xs with
  | nil => intro a; left; rfl
  | cons x xs ih =>
    intro a
    rcases ih (min a x) with h | h
    · rcases min_choice a x with h2 | h2
      · left; rw [List.foldl_cons, h, h2]
      · right; rw [List.foldl_cons, h, h2]; exact List.mem_cons_self x xs
    · right; exact List.mem_cons_of_mem x h

theorem minOfList_mem {α : Type} [LinearOrder α] (d : α) {l : List α}
    (h : l ≠ []) : minOfList d l ∈ l := by
  cases l with
  | nil => exact absurd rfl h
  | cons x xs =>
    rcases foldl_min_eq_or_mem xs x with h2 | h2
    · rw [minOfList, h2]; exact List.mem_cons_self x xs
    · exact List.mem_cons_of_mem x h2

theorem minOfList_le {α : Type} [LinearOrder α] (d : α) {l : List α} {y : α}
    (h : y ∈ l) : minOfList d l ≤ y := by
  cases l with
  | nil => cases h
  | cons x xs =>
    rcases List.mem_cons.mp h with rfl | h2
    · exact foldl_min_le_init xs y
    · exact foldl_min_le_mem xs x y h2

/-! ## Data model (`src/App.tsx` interfaces)

Optional descriptive fields that the modelled logic never reads or writes
(category strings, supplier, nutritional facts, contact/profile fields,
bookkeeping timestamps `createdAt`/`updatedAt`, …) are omitted from the
structures; every field below is typed exactly as in the source. -/

/-- The fixed role enumeration `UserRole`. -/
inductive UserRole where
  | ownerAdmin
  | salesRep
  | accountant
  | viewerOnly
deriving DecidableEq

/-- The TS string literal of each role. -/
def roleName : UserRole → String
  | .ownerAdmin => "Owner/Admin"
  | .salesRep => "Sales Representative"
  | .accountant => "Accountant/Bookkeeper"
  | .viewerOnly => "Viewer Only"

structure CartItem where
  id : String
  name : String
  price : ℚ
  quantity : ℚ
  weight : ℚ
  category : String
  totalWeight : ℚ
deriving DecidableEq

structure InventoryItem where
  id : String
  name : String
  price : ℚ
  costPrice : ℚ
  weight : ℚ
  stock : List (String × ℚ)
  stockWeight : List (String × ℚ)
  lowStockThreshold : ℚ
  expirationDates : List (String × List ℤ)
deriving DecidableEq

structure Branch where
  id : String
  name : String
  address : String
  active : Bool
deriving DecidableEq

structure Transaction where
  id : String
  branch : String
  customer : String
  customerId : Option String
  items : List CartItem
  subtotal : ℚ
  discount : ℚ
  total : ℚ
  timestamp : ℤ
  cashier : String
  paymentMethod : String
deriving DecidableEq

structure Customer where
  id : String
  name : String
  totalOrders : ℚ
  totalSpent : ℚ
  loyaltyPoints : ℚ
  lastPurchase : String
  lastContact : String
deriving DecidableEq

/-- State held by the `App` shell that the modelled handlers touch. -/
structure AppState where
  currentRole : UserRole
  currentBranch : String
  activeModule : String
  isMobileMenuOpen : Bool
  branches : List Branch
  inventory : List InventoryItem
  allTransactions : List Transaction
  customers : List Customer
deriving DecidableEq

/-! ## Role-based access control (`src/App.tsx` lines 217-235, 368-375) -/

def isAdmin (r : UserRole) : Bool := r == UserRole.ownerAdmin

def isWorker (r : UserRole) : Bool := r == UserRole.salesRep

def canEditInventory (r : UserRole) : Bool := isAdmin r

def canEditPrices (r : UserRole) : Bool := isAdmin r

def canViewFinancials (r : UserRole) : Bool :=
  isAdmin r || r == UserRole.accountant

/-- The `userRoles` mapping from role to permitted module ids. -/
def userRoles : UserRole → List String
  | .ownerAdmin =>
      ["dashboard", "pos", "reports", "crm", "sales", "inventory", "finance", "settings"]
  | .salesRep => ["dashboard", "pos", "inventory", "crm"]
  | .accountant => ["dashboard", "reports", "finance"]
  | .viewerOnly => ["dashboard", "reports"]

/-- Source: `userRoles[currentUser.role] || []`; the lookup is total on the
role enumeration, so the `|| []` default never fires. -/
def allowedModules (r : UserRole) : List String := userRoles r

/-- Outcome of `handleModuleChange`: either the switch happened, or the
denial `alert(...)` fired with its user-visible message. -/
inductive ModuleChangeResult where
  | allowed
  | denied (message : String)
deriving DecidableEq

/-- Source: `handleModuleChange` (lines 368-375). `allowedModules.includes`
is list membership; on success the active module is set and the mobile menu
closed, on denial the state is untouched and an alert message carrying the
role name is shown. -/
def handleModuleChange (st : AppState) (moduleId : String) :
    AppState × ModuleChangeResult :=
  if moduleId ∈ allowedModules st.currentRole then
    ({ st with activeModule := moduleId, isMobileMenuOpen := false },
      ModuleChangeResult.allowed)
  else
    (st, ModuleChangeResult.denied
      ("Acceso denegado. Su rol (" ++ roleName st.currentRole ++
        ") no tiene permisos para acceder a este módulo."))

/-- C2: a module-change request succeeds (the active module becomes the
target) iff the target is in the role's allowed set; on denial the result is
a first-class denied value whose message carries the role name, no exception
is thrown, and the whole state (in particular the active module) is
unchanged. -/
theorem handleModuleChange_spec (st : AppState) (m : String) :
    ((handleModuleChange st m).2 = ModuleChangeResult.allowed ↔
        m ∈ allowedModules st.currentRole)
    ∧ (m ∈ allowedModules st.currentRole →
        (handleModuleChange st m).1.activeModule = m)
    ∧ (m ∉ allowedModules st.currentRole →
        (handleModuleChange st m).1 = st
        ∧ (handleModuleChange st m).2 = ModuleChangeResult.denied
            ("Acceso denegado. Su rol (" ++ roleName st.currentRole ++
              ") no tiene permisos para acceder a este módulo.")) := by
  by_cases h : m ∈ allowedModules st.currentRole
  · refine ⟨⟨fun _ => h, fun _ => ?_⟩, fun _ => ?_, fun h2 => absurd h h2⟩
    · simp [handleModuleChange, h]
    · simp [handleModuleChange, h]
  · refine ⟨⟨fun h2 => ?_, fun h2 => absurd h2 h⟩, fun h2 => absurd h2 h, fun _ => ?_⟩
    · simp [handleModuleChange, h] at h2
    · simp [handleModuleChange, h]

/-- C10: the derived capability booleans are pure functions of the role, and
`canViewFinancials` agrees exactly with visibility of the finance module in
the role's allowed-module set. -/
theorem canViewFinancials_iff_finance_allowed :
    ∀ r : UserRole,
      (canViewFinancials r = true ↔ "finance" ∈ allowedModules r) := by
  intro r
  cases r <;> simp [canViewFinancials, isAdmin, allowedModules, userRoles]

/-! ## Analytics engine (`src/App.tsx` lines 262-365) -/

structure SalesMetrics where
  totalRevenue : ℚ
  totalOrders : ℕ
  averageOrder : ℚ
  grossProfit : ℚ
  inventoryValue : ℚ
  totalInventoryWeight : ℚ
  totalCOGS : ℚ
deriving DecidableEq

/-- Source: `branchNames.reduce((branchSum, branch) => branchSum + (item.stock[branch] || 0), 0)`. -/
def totalStockAcross (item : InventoryItem) (branchNames : List String) : ℚ :=
  branchNames.foldl (fun branchSum branch => branchSum + recGet item.stock branch) 0

/-- Source: the `salesMetrics` memo (lines 262-298). `adminFlag` is the
shell's derived `isAdmin` boolean. -/
def salesMetrics (allTransactions : List Transaction)
    (inventory : List InventoryItem) (branchNames : List String)
    (adminFlag : Bool) : SalesMetrics :=
  let totalRevenue := allTransactions.foldl (fun sum t => sum + t.total) 0
  let totalOrders := allTransactions.length
  let averageOrder := if totalOrders > 0 then totalRevenue / (totalOrders : ℚ) else 0
  let totalCOGS :=
    if adminFlag then
      allTransactions.foldl (fun sum t =>
        sum + t.items.foldl (fun itemSum item =>
          let costPrice :=
            match inventory.find? (fun inv => inv.id == item.id) with
            | some inventoryItem => inventoryItem.costPrice
            | none => 0
          itemSum + costPrice * item.quantity) 0) 0
    else 0
  let grossProfit := if adminFlag then totalRevenue - totalCOGS else 0
  let inventoryValue :=
    if adminFlag then
      inventory.foldl (fun sum item =>
        sum + totalStockAcross item branchNames * item.costPrice) 0
    else 0
  let totalInventoryWeight :=
    inventory.foldl (fun sum item =>
      sum + totalStockAcross item branchNames * item.weight) 0
  { totalRevenue, totalOrders, averageOrder, grossProfit, inventoryValue,
    totalInventoryWeight, totalCOGS }

structure StockAlert where
  id : String
  name : String
  branches : List String
  lowestStock : ℚ
  alertType : String
deriving DecidableEq

/-- Source: the `lowStockAlerts` part of the alerts memo (lines 329-338). -/
def lowStockAlerts (inventory : List InventoryItem)
    (branchNames : List String) : List StockAlert :=
  (inventory.filter (fun item =>
      branchNames.any (fun branch =>
        decide (recGet item.stock branch ≤ item.lowStockThreshold)))).map
    (fun item =>
      { id := item.id
        name := item.name
        branches := branchNames.filter (fun branch =>
          decide (recGet item.stock branch ≤ item.lowStockThreshold))
        lowestStock := minOfList 0
          (branchNames.map (fun branch => recGet item.stock branch))
        alertType := "stock" })

structure ExpirationAlert where
  id : String
  name : String
  branch : String
  daysLeft : ℤ
  alertType : String
deriving DecidableEq

/-- Source: `Math.ceil((date.getTime() - new Date().getTime()) / (1000 * 60 * 60 * 24))`. -/
def daysUntilExpiration (now date : ℤ) : ℤ :=
  ⌈((date : ℚ) - (now : ℚ)) / ((1000 : ℚ) * 60 * 60 * 24)⌉

/-- The alert the expiration scan pushes for one item/branch pair, if any
(lines 341-359): present expiration dates are filtered to the
`0 < days ≤ 20` window and the minimum days-left of the survivors is
reported. -/
def branchExpirationAlert (now : ℤ) (item : InventoryItem)
    (branch : String) : Option ExpirationAlert :=
  match item.expirationDates.lookup branch with
  | none => none
  | some dates =>
    let expiringItems := dates.filter (fun date =>
      decide (daysUntilExpiration now date ≤ 20 ∧ 0 < daysUntilExpiration now date))
    if 0 < expiringItems.length then
      some { id := item.id ++ "-" ++ branch
             name := item.name
             branch := branch
             daysLeft := minOfList 0
               (expiringItems.map (fun date => daysUntilExpiration now date))
             alertType := "expiration" }
    else none

/-- Source: the `expirationAlerts` reduce over inventory with a forEach over
branch names pushing alerts (lines 340-362). -/
def expirationAlerts (now : ℤ) (inventory : List InventoryItem)
    (branchNames : List String) : List ExpirationAlert :=
  inventory.foldl (fun alerts item =>
    alerts ++ branchNames.filterMap (fun branch =>
      branchExpirationAlert now item branch)) []

/-! ## General lemmas about the fold shapes the source uses -/

theorem foldl_add_eq {α : Type} (f : α → ℚ) :
    ∀ (l : List α) (a : ℚ),
      l.foldl (fun s x => s + f x) a = a + (l.map f).sum := by
  intro l
  induction l with
  | nil => intro a; simp
  | cons x xs ih => intro a; simp [ih]; ring

theorem foldl_add_map_sum {α : Type} (f : α → ℚ) (l : List α) :
    l.foldl (fun s x => s + f x) 0 = (l.map f).sum := by
  rw [foldl_add_eq]; ring

theorem map_eq_self_of {α : Type} (f : α → α) (l : List α)
    (h : ∀ a ∈ l, f a = a) : l.map f = l := by
  induction l with
  | nil => rfl
  | cons x xs ih =>
    simp [h x (List.mem_cons_self x xs),
      ih (fun a ha => h a (List.mem_cons_of_mem x ha))]

theorem mem_foldl_append {α β : Type} (f : α → List β) :
    ∀ (l : List α) (acc : List β) (b : β),
      (b ∈ l.foldl (fun acc2 x => acc2 ++ f x) acc ↔
        b ∈ acc ∨ ∃ a ∈ l, b ∈ f a) := by
  intro l
  induction l with
  | nil => intro acc b; simp
  | cons x xs ih =>
    intro acc b
    rw [List.foldl_cons, ih]
    simp only [List.mem_append, List.mem_cons, or_assoc]
    constructor
    · rintro (h | h | ⟨a, ha, hb⟩)
      · exact Or.inl h
      · exact Or.inr ⟨x, Or.inl rfl, h⟩
      · exact Or.inr ⟨a, Or.inr ha, hb⟩
    · rintro (h | ⟨a, rfl | ha, hb⟩)
      · exact Or.inl h
      · exact Or.inr (Or.inl hb)
      · exact Or.inr (Or.inr ⟨a, ha, hb⟩)

/-! ## Claims about the sales metrics -/

/-- Written from the spec's COGS sentence: a line item contributes its
matched inventory item's cost price times the quantity sold, and 0 when no
inventory record matches its id. -/
def specLineCOGS (inventory : List InventoryItem) (li : CartItem) : ℚ :=
  match inventory.find? (fun inv => inv.id == li.id) with
  | some inventoryItem => inventoryItem.costPrice * li.quantity
  | none => 0

theorem specLineCOGS_eq (inventory : List InventoryItem) (li : CartItem) :
    (match inventory.find? (fun inv => inv.id == li.id) with
      | some inventoryItem => inventoryItem.costPrice
      | none => 0) * li.quantity = specLineCOGS inventory li := by
  cases h : inventory.find? (fun inv => inv.id == li.id) <;>
    simp [specLineCOGS, h]

/-- C7: total revenue is the sum of the transaction totals, the order count
is the number of transactions, and the average order is revenue divided by
count with an explicit zero on an empty transaction list. -/
theorem salesMetrics_revenue_average (ts : List Transaction)
    (inventory : List InventoryItem) (branchNames : List String)
    (adminFlag : Bool) :
    (salesMetrics ts inventory branchNames adminFlag).totalRevenue
        = (ts.map Transaction.total).sum
    ∧ (salesMetrics ts inventory branchNames adminFlag).totalOrders = ts.length
    ∧ (ts = [] →
        (salesMetrics ts inventory branchNames adminFlag).averageOrder = 0)
    ∧ (ts ≠ [] →
        (salesMetrics ts inventory branchNames adminFlag).averageOrder
          = (ts.map Transaction.total).sum / (ts.length : ℚ)) := by
  refine ⟨?_, rfl, ?_, ?_⟩
  · exact foldl_add_map_sum Transaction.total ts
  · intro h; subst h; simp [salesMetrics]
  · intro h
    have hlen : 0 < ts.length := List.length_pos.mpr h
    simp [salesMetrics, hlen, foldl_add_map_sum Transaction.total ts]

/-- C3: with the admin flag off, cost of goods sold and gross profit are
forced to 0 whatever the data; with it on, COGS is the double sum of matched
cost price times quantity (an unmatched line item contributing 0) and gross
profit is revenue minus COGS. -/
theorem salesMetrics_cogs_visibility (ts : List Transaction)
    (inventory : List InventoryItem) (branchNames : List String) :
    ((salesMetrics ts inventory branchNames false).totalCOGS = 0
      ∧ (salesMetrics ts inventory branchNames false).grossProfit = 0)
    ∧ ((salesMetrics ts inventory branchNames true).totalCOGS
          = (ts.map (fun t => (t.items.map (specLineCOGS inventory)).sum)).sum
      ∧ (salesMetrics ts inventory branchNames true).grossProfit
          = (salesMetrics ts inventory branchNames true).totalRevenue
            - (salesMetrics ts inventory branchNames true).totalCOGS) := by
  refine ⟨⟨rfl, rfl⟩, ?_, rfl⟩
  show ts.foldl (fun sum t =>
      sum + t.items.foldl (fun itemSum item =>
        itemSum + (match inventory.find? (fun inv => inv.id == item.id) with
          | some inventoryItem => inventoryItem.costPrice
          | none => 0) * item.quantity) 0) 0
    = (ts.map (fun t => (t.items.map (specLineCOGS inventory)).sum)).sum
  have hinner : ∀ t : Transaction,
      t.items.foldl (fun itemSum item =>
        itemSum + (match inventory.find? (fun inv => inv.id == item.id) with
          | some inventoryItem => inventoryItem.costPrice
          | none => 0) * item.quantity) 0
        = (t.items.map (specLineCOGS inventory)).sum := by
    intro t
    rw [foldl_add_map_sum (fun item =>
      (match inventory.find? (fun inv => inv.id == item.id) with
        | some inventoryItem => inventoryItem.costPrice
        | none => 0) * item.quantity) t.items]
    simp only [specLineCOGS_eq]
  simp only [hinner]
  exact foldl_add_map_sum (fun t => (t.items.map (specLineCOGS inventory)).sum) ts

theorem totalStockAcross_eq (item : InventoryItem) (branchNames : List String) :
    totalStockAcross item branchNames
      = (branchNames.map (fun branch => recGet item.stock branch)).sum :=
  foldl_add_map_sum (fun branch => recGet item.stock branch) branchNames

/-- C5 (amended): the valuation formula holds only under the admin flag —
with it off the computed valuation is forced to 0 — while the total
inventory weight formula holds for every value of the flag. -/
theorem salesMetrics_inventory_valuation (ts : List Transaction)
    (inventory : List InventoryItem) (branchNames : List String) :
    (salesMetrics ts inventory branchNames true).inventoryValue
        = (inventory.map (fun item =>
            ((branchNames.map (fun branch => recGet item.stock branch)).sum)
              * item.costPrice)).sum
    ∧ (salesMetrics ts inventory branchNames false).inventoryValue = 0
    ∧ (∀ adminFlag : Bool,
        (salesMetrics ts inventory branchNames adminFlag).totalInventoryWeight
          = (inventory.map (fun item =>
              ((branchNames.map (fun branch => recGet item.stock branch)).sum)
                * item.weight)).sum) := by
  refine ⟨?_, rfl, ?_⟩
  · show inventory.foldl (fun sum item =>
        sum + totalStockAcross item branchNames * item.costPrice) 0 = _
    rw [foldl_add_map_sum (fun item =>
      totalStockAcross item branchNames * item.costPrice) inventory]
    simp only [totalStockAcross_eq]
  · intro adminFlag
    show inventory.foldl (fun sum item =>
        sum + totalStockAcross item branchNames * item.weight) 0 = _
    rw [foldl_add_map_sum (fun item =>
      totalStockAcross item branchNames * item.weight) inventory]
    simp only [totalStockAcross_eq]

/-! ## Claims about the alert derivations -/

/-- C6: an item appears in the low-stock alerts exactly when some named
branch's on-hand quantity (0 for a missing entry) is at or below its
threshold; the alert lists exactly the branches at or below threshold and
its `lowestStock` is the minimum on-hand quantity across all named branches
(it is one of the per-branch quantities and a lower bound of all of them).
The boundary case of the spec — threshold 5 with on-hand 5 alerts, on-hand 6
does not — is the `≤` in the branch condition. -/
theorem mem_lowStockAlerts_iff (inventory : List InventoryItem)
    (branchNames : List String) (a : StockAlert) :
    a ∈ lowStockAlerts inventory branchNames ↔
      ∃ item ∈ inventory,
        (∃ branch ∈ branchNames,
          recGet item.stock branch ≤ item.lowStockThreshold)
        ∧ a.id = item.id ∧ a.name = item.name
        ∧ a.branches = branchNames.filter (fun branch =>
            decide (recGet item.stock branch ≤ item.lowStockThreshold))
        ∧ a.lowestStock ∈ branchNames.map (fun branch => recGet item.stock branch)
        ∧ (∀ q ∈ branchNames.map (fun branch => recGet item.stock branch),
            a.lowestStock ≤ q)
        ∧ a.alertType = "stock" := by
  unfold lowStockAlerts
  rw [List.mem_map]
  constructor
  · rintro ⟨item, hmem, rfl⟩
    rw [List.mem_filter] at hmem
    obtain ⟨hinv, hany⟩ := hmem
    rw [List.any_eq_true] at hany
    obtain ⟨branch, hbr, hle⟩ := hany
    rw [decide_eq_true_eq] at hle
    have hne : branchNames.map (fun branch => recGet item.stock branch) ≠ [] := by
      intro h
      rw [List.map_eq_nil_iff] at h
      subst h
      cases hbr
    refine ⟨item, hinv, ⟨branch, hbr, hle⟩, rfl, rfl, rfl, ?_, ?_, rfl⟩
    · exact minOfList_mem 0 hne
    · intro q hq; exact minOfList_le 0 hq
  · rintro ⟨item, hinv, ⟨branch, hbr, hle⟩, hid, hname, hbrs, hmemq, hlb, hty⟩
    refine ⟨item, ?_, ?_⟩
    · rw [List.mem_filter]
      refine ⟨hinv, ?_⟩
      rw [List.any_eq_true]
      exact ⟨branch, hbr, by rw [decide_eq_true_eq]; exact hle⟩
    · have hne : branchNames.map (fun branch => recGet item.stock branch) ≠ [] := by
        intro h
        rw [List.map_eq_nil_iff] at h
        subst h
        cases hbr
      have hmin : a.lowestStock
          = minOfList 0 (branchNames.map (fun branch => recGet item.stock branch)) := by
        apply le_antisymm
        · exact hlb _ (minOfList_mem 0 hne)
        · exact minOfList_le 0 hmemq
      obtain ⟨aid, aname, abrs, alow, aty⟩ := a
      simp only at hid hname hbrs hmin hty
      rw [hid, hname, hbrs, hmin, hty]

theorem filter_comp_map {α β : Type} (f : α → β) (p : β → Bool) :
    ∀ l : List α, (l.filter (fun x => p (f x))).map f = (l.map f).filter p := by
  intro l
  induction l with
  | nil => rfl
  | cons x xs ih => cases h : p (f x) <;> simp [List.filter_cons, h, ih]

theorem expiring_map_days (now : ℤ) (dates : List ℤ) :
    (dates.filter (fun date =>
        decide (daysUntilExpiration now date ≤ 20
          ∧ 0 < daysUntilExpiration now date))).map
      (fun date => daysUntilExpiration now date)
      = (dates.map (fun date => daysUntilExpiration now date)).filter
          (fun d => decide (d ≤ 20 ∧ 0 < d)) :=
  filter_comp_map (fun date => daysUntilExpiration now date)
    (fun d => decide (d ≤ 20 ∧ 0 < d)) dates

theorem branchExpirationAlert_eq_some_iff (now : ℤ) (item : InventoryItem)
    (branch : String) (a : ExpirationAlert) :
    branchExpirationAlert now item branch = some a ↔
      ∃ dates, item.expirationDates.lookup branch = some dates
        ∧ a.id = item.id ++ "-" ++ branch ∧ a.name = item.name
        ∧ a.branch = branch
        ∧ a.daysLeft ∈ (dates.map (fun date => daysUntilExpiration now date)).filter
            (fun d => decide (d ≤ 20 ∧ 0 < d))
        ∧ (∀ q ∈ (dates.map (fun date => daysUntilExpiration now date)).filter
            (fun d => decide (d ≤ 20 ∧ 0 < d)), a.daysLeft ≤ q)
        ∧ a.alertType = "expiration" := by
  unfold branchExpirationAlert
  cases hlook : item.expirationDates.lookup branch with
  | none => simp
  | some dates =>
    simp only [Option.some.injEq, exists_eq_left']
    rw [← expiring_map_days]
    set expiringItems := dates.filter (fun date =>
      decide (daysUntilExpiration now date ≤ 20
        ∧ 0 < daysUntilExpiration now date)) with hexp
    by_cases hne : 0 < expiringItems.length
    · have hnil : expiringItems.map (fun date => daysUntilExpiration now date) ≠ [] := by
        intro h
        rw [List.map_eq_nil_iff] at h
        rw [h] at hne
        exact absurd hne (by simp)
      rw [if_pos hne]
      constructor
      · rintro h
        injection h with h
        subst h
        exact ⟨rfl, rfl, rfl, minOfList_mem 0 hnil,
          fun q hq => minOfList_le 0 hq, rfl⟩
      · rintro ⟨hid, hname, hbr, hmemq, hlb, hty⟩
        have hmin : a.daysLeft = minOfList 0
            (expiringItems.map (fun date => daysUntilExpiration now date)) := by
          apply le_antisymm
          · exact hlb _ (minOfList_mem 0 hnil)
          · exact minOfList_le 0 hmemq
        obtain ⟨aid, aname, abr, ad, aty⟩ := a
        simp only at hid hname hbr hmin hty
        rw [hid, hname, hbr, hmin, hty]
    · rw [if_neg hne]
      constructor
      · rintro h; cases h
      · rintro ⟨hid, hname, hbr, hmemq, hlb, hty⟩
        have hmape : expiringItems.map (fun date => daysUntilExpiration now date) = [] := by
          have hlen : expiringItems.length = 0 := by omega
          rw [List.length_eq_zero] at hlen
          rw [hlen]
          rfl
        rw [hmape] at hmemq
        cases hmemq

/-- C4 (amended): an alert of the expiration scan is exactly an item/branch
pair with recorded expiration dates for which SOME batch's
ceiling-days-until-expiration lies in the window `0 < days ≤ 20`; its
`daysLeft` is the minimum days-left among the batches inside the window (it
is one of those in-window values and a lower bound of all of them); expired
batches (`days ≤ 0`) and far-out batches (`days > 20`) never qualify. -/
theorem mem_expirationAlerts_iff (now : ℤ) (inventory : List InventoryItem)
    (branchNames : List String) (a : ExpirationAlert) :
    a ∈ expirationAlerts now inventory branchNames ↔
      ∃ item ∈ inventory, ∃ branch ∈ branchNames, ∃ dates,
        item.expirationDates.lookup branch = some dates
        ∧ a.id = item.id ++ "-" ++ branch ∧ a.name = item.name
        ∧ a.branch = branch
        ∧ a.daysLeft ∈ (dates.map (fun date => daysUntilExpiration now date)).filter
            (fun d => decide (d ≤ 20 ∧ 0 < d))
        ∧ (∀ q ∈ (dates.map (fun date => daysUntilExpiration now date)).filter
            (fun d => decide (d ≤ 20 ∧ 0 < d)), a.daysLeft ≤ q)
        ∧ a.alertType = "expiration" := by
  unfold expirationAlerts
  rw [mem_foldl_append]
  simp only [List.not_mem_nil, false_or, List.mem_filterMap]
  constructor
  · rintro ⟨item, hitem, branch, hbr, halert⟩
    exact ⟨item, hitem, branch, hbr,
      (branchExpirationAlert_eq_some_iff now item branch a).mp halert⟩
  · rintro ⟨item, hitem, branch, hbr, hrest⟩
    exact ⟨item, hitem, branch, hbr,
      (branchExpirationAlert_eq_some_iff now item branch a).mpr hrest⟩

/-! ## Transaction-commit handler (`src/App.tsx` lines 397-451) -/

/-- The per-item inventory update of `handleNewTransaction` step 2: the
first line item whose id matches is deducted, the stock is clamped at 0 and
the branch's stock weight recomputed; an item with no matching line item is
returned unchanged. -/
def applyTransactionToItem (transaction : Transaction)
    (item : InventoryItem) : InventoryItem :=
  match transaction.items.find? (fun cartItem => cartItem.id == item.id) with
  | some soldItem =>
      let currentStock := recGet item.stock transaction.branch
      let newStock := max 0 (currentStock - soldItem.quantity)
      let newStockWeight := newStock * item.weight
      { item with
          stock := recSet item.stock transaction.branch newStock
          stockWeight := recSet item.stockWeight transaction.branch newStockWeight }
  | none => item

/-- The per-customer update of `handleNewTransaction` step 3: the customer
whose id equals the transaction's customer id gets one more order, the total
added to spending, both contact dates stamped (`nowStr` stands for
`new Date().toLocaleDateString` at commit time) and `floor(total / 100)`
loyalty points; everyone else is returned unchanged. -/
def applyTransactionToCustomer (nowStr : String) (transaction : Transaction)
    (cid : String) (customer : Customer) : Customer :=
  if customer.id == cid then
    { customer with
        totalOrders := customer.totalOrders + 1
        totalSpent := customer.totalSpent + transaction.total
        lastPurchase := nowStr
        lastContact := nowStr
        loyaltyPoints := customer.loyaltyPoints
          + ((⌊transaction.total / 100⌋ : ℤ) : ℚ) }
  else customer

/-- Source: `handleNewTransaction` (lines 397-451): prepend the transaction,
map the inventory update over every item, and, when a customer id is present
(JS truthiness: `undefined` and the empty string both skip step 3), map the
customer update over every customer. -/
def handleNewTransaction (nowStr : String) (transaction : Transaction)
    (st : AppState) : AppState :=
  let st1 := { st with allTransactions := transaction :: st.allTransactions }
  let st2 := { st1 with
    inventory := st1.inventory.map (applyTransactionToItem transaction) }
  match transaction.customerId with
  | some cid =>
      if cid = "" then st2
      else { st2 with
        customers := st2.customers.map
          (applyTransactionToCustomer nowStr transaction cid) }
  | none => st2

theorem handleNewTransaction_inventory (nowStr : String) (t : Transaction)
    (st : AppState) :
    (handleNewTransaction nowStr t st).inventory
      = st.inventory.map (applyTransactionToItem t) := by
  unfold handleNewTransaction
  cases t.customerId with
  | none => rfl
  | some cid => by_cases h : cid = "" <;> simp [h]

theorem handleNewTransaction_log (nowStr : String) (t : Transaction)
    (st : AppState) :
    (handleNewTransaction nowStr t st).allTransactions
      = t :: st.allTransactions := by
  unfold handleNewTransaction
  cases t.customerId with
  | none => rfl
  | some cid => by_cases h : cid = "" <;> simp [h]

theorem handleNewTransaction_customers_some (nowStr : String)
    (t : Transaction) (st : AppState) (cid : String)
    (hcid : t.customerId = some cid) (hne : cid ≠ "") :
    (handleNewTransaction nowStr t st).customers
      = st.customers.map (applyTransactionToCustomer nowStr t cid) := by
  unfold handleNewTransaction
  rw [hcid]
  simp [hne]

theorem handleNewTransaction_customers_skip (nowStr : String)
    (t : Transaction) (st : AppState)
    (h : t.customerId = none ∨ t.customerId = some "") :
    (handleNewTransaction nowStr t st).customers = st.customers := by
  unfold handleNewTransaction
  rcases h with h | h
  · rw [h]
  · rw [h]; simp

/-- C1 (amended): after a commit, an inventory item matched by a line item
of the transaction holds `max 0 (previous stock − quantity of the FIRST
matching line item)` at the transaction's branch — never negative, an
oversell silently clamped to 0 — and that branch's stock weight is the new
stock count times the item's unit weight. -/
theorem handleNewTransaction_stock_clamped (nowStr : String)
    (t : Transaction) (st : AppState) (i : ℕ) (item : InventoryItem)
    (soldItem : CartItem)
    (hitem : st.inventory[i]? = some item)
    (hfind : t.items.find? (fun cartItem => cartItem.id == item.id)
      = some soldItem) :
    ∃ item2, (handleNewTransaction nowStr t st).inventory[i]? = some item2
      ∧ recGet item2.stock t.branch
          = max 0 (recGet item.stock t.branch - soldItem.quantity)
      ∧ recGet item2.stockWeight t.branch
          = max 0 (recGet item.stock t.branch - soldItem.quantity)
            * item.weight := by
  refine ⟨applyTransactionToItem t item, ?_, ?_, ?_⟩
  · rw [handleNewTransaction_inventory, List.getElem?_map, hitem]
    rfl
  · simp [applyTransactionToItem, hfind, recGet_recSet_self]
  · simp [applyTransactionToItem, hfind, recGet_recSet_self]

def w1Item : InventoryItem :=
  { id := "x"
    name := "Feed A"
    price := 12
    costPrice := 7
    weight := 2
    stock := [("Main", 10)]
    stockWeight := [("Main", 20)]
    lowStockThreshold := 3
    expirationDates := [] }

def w1Cart : CartItem :=
  { id := "x"
    name := "Feed A"
    price := 12
    quantity := 15
    weight := 2
    category := "feed"
    totalWeight := 30 }

def w1Tx : Transaction :=
  { id := "t1"
    branch := "Main"
    customer := ""
    customerId := none
    items := [w1Cart]
    subtotal := 180
    discount := 0
    total := 180
    timestamp := 0
    cashier := "c"
    paymentMethod := "cash" }

def w1State : AppState :=
  { currentRole := UserRole.ownerAdmin
    currentBranch := "Main"
    activeModule := "dashboard"
    isMobileMenuOpen := false
    branches := []
    inventory := [w1Item]
    allTransactions := []
    customers := [] }

/-- Witness for C1: selling 15 units of an item with 10 on hand clamps the
branch stock to `max 0 (10 − 15) = 0` (the spec's oversell example), with
stock weight `0 * 2 = 0`. -/
theorem handleNewTransaction_stock_clamped_witness :
    (∃ item2, (handleNewTransaction "d" w1Tx w1State).inventory[0]? = some item2
      ∧ recGet item2.stock w1Tx.branch
          = max 0 (recGet w1Item.stock w1Tx.branch - w1Cart.quantity)
      ∧ recGet item2.stockWeight w1Tx.branch
          = max 0 (recGet w1Item.stock w1Tx.branch - w1Cart.quantity)
            * w1Item.weight)
    ∧ max (0 : ℚ) (recGet w1Item.stock w1Tx.branch - w1Cart.quantity) = 0 := by
  constructor
  · exact handleNewTransaction_stock_clamped "d" w1Tx w1State 0 w1Item w1Cart
      rfl rfl
  · show max (0 : ℚ) (recGet w1Item.stock "Main" - 15) = 0
    have h : recGet w1Item.stock "Main" = 10 := by
      simp [w1Item, recGet, List.lookup]
    rw [h]
    rw [max_eq_left (by norm_num)]

def c1CartA : CartItem :=
  { id := "x"
    name := "Feed A"
    price := 12
    quantity := 3
    weight := 2
    category := "feed"
    totalWeight := 6 }

def c1CartB : CartItem :=
  { id := "x"
    name := "Feed A"
    price := 12
    quantity := 5
    weight := 2
    category := "feed"
    totalWeight := 10 }

def c1Tx : Transaction :=
  { id := "t2"
    branch := "Main"
    customer := ""
    customerId := none
    items := [c1CartA, c1CartB]
    subtotal := 96
    discount := 0
    total := 96
    timestamp := 0
    cashier := "c"
    paymentMethod := "cash" }

def c1State : AppState :=
  { currentRole := UserRole.ownerAdmin
    currentBranch := "Main"
    activeModule := "dashboard"
    isMobileMenuOpen := false
    branches := []
    inventory := [w1Item]
    allTransactions := []
    customers := [] }

/-- Counterexample to C1 as stated: a transaction holding TWO line items
with the same id (quantities 3 and 5) against 10 units on hand leaves the
stock at `max 0 (10 − 3) = 7` — only the first match is deducted — while the
claim, instantiated at the second matching line item, demands
`max 0 (10 − 5) = 5`. -/
theorem duplicate_line_item_counterexample :
    c1CartB ∈ c1Tx.items ∧ c1CartB.id = w1Item.id
    ∧ (∃ item2, (handleNewTransaction "d" c1Tx c1State).inventory[0]?
          = some item2
        ∧ recGet item2.stock "Main" = 7)
    ∧ max (0 : ℚ) (recGet w1Item.stock "Main" - c1CartB.quantity) = 5
    ∧ (7 : ℚ) ≠ 5 := by
  have hstock : recGet w1Item.stock "Main" = 10 := by
    simp [w1Item, recGet, List.lookup]
  have hfind : c1Tx.items.find? (fun cartItem => cartItem.id == w1Item.id)
      = some c1CartA := rfl
  refine ⟨List.mem_cons_of_mem _ (List.mem_cons_self _ _), rfl,
    ⟨applyTransactionToItem c1Tx w1Item, ?_, ?_⟩, ?_, by norm_num⟩
  · rw [handleNewTransaction_inventory]
    rfl
  · show recGet (applyTransactionToItem c1Tx w1Item).stock "Main" = 7
    simp only [applyTransactionToItem, hfind]
    have hbr : c1Tx.branch = "Main" := rfl
    rw [hbr, recGet_recSet_self, hstock]
    show max (0 : ℚ) (10 - c1CartA.quantity) = 7
    have hq : c1CartA.quantity = 3 := rfl
    rw [hq, max_eq_right (by norm_num)]
    norm_num
  · rw [hstock]
    have hq : c1CartB.quantity = 5 := rfl
    rw [hq, max_eq_right (by norm_num)]
    norm_num

/-- C8: a committed transaction whose customer id matches an existing
customer adds exactly one order, the transaction total to total spent,
`floor(total / 100)` loyalty points, and stamps both contact dates with the
commit date; a customer with a different id is unchanged. -/
theorem handleNewTransaction_customer_update (nowStr : String)
    (t : Transaction) (st : AppState) (cid : String) (i : ℕ) (c : Customer)
    (hcid : t.customerId = some cid) (hne : cid ≠ "")
    (hc : st.customers[i]? = some c) :
    (c.id = cid →
      (handleNewTransaction nowStr t st).customers[i]? = some
        { c with
            totalOrders := c.totalOrders + 1
            totalSpent := c.totalSpent + t.total
            lastPurchase := nowStr
            lastContact := nowStr
            loyaltyPoints := c.loyaltyPoints + ((⌊t.total / 100⌋ : ℤ) : ℚ) })
    ∧ (c.id ≠ cid →
        (handleNewTransaction nowStr t st).customers[i]? = some c) := by
  rw [handleNewTransaction_customers_some nowStr t st cid hcid hne]
  rw [List.getElem?_map, hc]
  constructor
  · intro hid
    have hbeq : (c.id == cid) = true := beq_iff_eq.mpr hid
    simp [applyTransactionToCustomer, hbeq]
  · intro hid
    have hbeq : (c.id == cid) = false := beq_eq_false_iff_ne.mpr hid
    simp [applyTransactionToCustomer, hbeq]

def w8Cust : Customer :=
  { id := "c1"
    name := "Ana"
    totalOrders := 3
    totalSpent := 500
    loyaltyPoints := 10
    lastPurchase := "p"
    lastContact := "q" }

def w8Tx : Transaction :=
  { id := "t3"
    branch := "Main"
    customer := "Ana"
    customerId := some "c1"
    items := []
    subtotal := 250
    discount := 0
    total := 250
    timestamp := 0
    cashier := "c"
    paymentMethod := "cash" }

def w8State : AppState :=
  { currentRole := UserRole.ownerAdmin
    currentBranch := "Main"
    activeModule := "dashboard"
    isMobileMenuOpen := false
    branches := []
    inventory := []
    allTransactions := []
    customers := [w8Cust] }

/-- Witness for C8: the spec's example — totalSpent 500 plus a transaction
of total 250 gives 750, and `floor(250 / 100) = 2` loyalty points are
added. -/
theorem handleNewTransaction_customer_update_witness :
    ((w8Cust.id = "c1" →
        (handleNewTransaction "d" w8Tx w8State).customers[0]? = some
          { w8Cust with
              totalOrders := w8Cust.totalOrders + 1
              totalSpent := w8Cust.totalSpent + w8Tx.total
              lastPurchase := "d"
              lastContact := "d"
              loyaltyPoints := w8Cust.loyaltyPoints
                + ((⌊w8Tx.total / 100⌋ : ℤ) : ℚ) })
      ∧ (w8Cust.id ≠ "c1" →
          (handleNewTransaction "d" w8Tx w8State).customers[0]? = some w8Cust))
    ∧ w8Cust.totalSpent + w8Tx.total = 750
    ∧ ((⌊w8Tx.total / 100⌋ : ℤ) : ℚ) = 2 := by
  refine ⟨handleNewTransaction_customer_update "d" w8Tx w8State "c1" 0 w8Cust
    rfl (by decide) rfl, ?_, ?_⟩
  · show (500 : ℚ) + 250 = 750
    norm_num
  · show ((⌊(250 : ℚ) / 100⌋ : ℤ) : ℚ) = 2
    have h : (⌊(250 : ℚ) / 100⌋ : ℤ) = 2 := by
      rw [Int.floor_eq_iff]
      norm_num
    rw [h]
    norm_num

/-- C9: a line item matching no inventory record leaves that inventory slot
untouched, a customer id matching no customer (or absent, or empty) leaves
all customers untouched, no error is raised (the handler is total), and the
transaction is still prepended to the log. -/
theorem handleNewTransaction_missing_reference (nowStr : String)
    (t : Transaction) (st : AppState) (i : ℕ) (item : InventoryItem)
    (hitem : st.inventory[i]? = some item)
    (hmiss : t.items.find? (fun cartItem => cartItem.id == item.id) = none)
    (hcust : ∀ cid, t.customerId = some cid → cid ≠ "" →
      ∀ c ∈ st.customers, c.id ≠ cid) :
    (handleNewTransaction nowStr t st).inventory[i]? = some item
    ∧ (handleNewTransaction nowStr t st).customers = st.customers
    ∧ (handleNewTransaction nowStr t st).allTransactions
        = t :: st.allTransactions := by
  refine ⟨?_, ?_, handleNewTransaction_log nowStr t st⟩
  · rw [handleNewTransaction_inventory, List.getElem?_map, hitem]
    simp [applyTransactionToItem, hmiss]
  · cases hc : t.customerId with
    | none => exact handleNewTransaction_customers_skip nowStr t st (Or.inl hc)
    | some cid =>
      by_cases hcid0 : cid = ""
      · exact handleNewTransaction_customers_skip nowStr t st
          (Or.inr (hcid0 ▸ hc))
      · rw [handleNewTransaction_customers_some nowStr t st cid hc hcid0]
        apply map_eq_self_of
        intro c hcmem
        have hne2 : c.id ≠ cid := hcust cid hc hcid0 c hcmem
        have hbeq : (c.id == cid) = false := beq_eq_false_iff_ne.mpr hne2
        simp [applyTransactionToCustomer, hbeq]

def w9Cart : CartItem :=
  { id := "z"
    name := "Ghost"
    price := 1
    quantity := 2
    weight := 1
    category := "feed"
    totalWeight := 2 }

def w9Tx : Transaction :=
  { id := "t4"
    branch := "Main"
    customer := "Nadie"
    customerId := some "nobody"
    items := [w9Cart]
    subtotal := 2
    discount := 0
    total := 2
    timestamp := 0
    cashier := "c"
    paymentMethod := "cash" }

def w9State : AppState :=
  { currentRole := UserRole.ownerAdmin
    currentBranch := "Main"
    activeModule := "dashboard"
    isMobileMenuOpen := false
    branches := []
    inventory := [w1Item]
    allTransactions := []
    customers := [w8Cust] }

/-- Witness for C9: a line item with unmatched id "z" and a customer id
"nobody" matching no customer — inventory slot and customers unchanged, the
transaction still logged. -/
theorem handleNewTransaction_missing_reference_witness :
    (handleNewTransaction "d" w9Tx w9State).inventory[0]? = some w1Item
    ∧ (handleNewTransaction "d" w9Tx w9State).customers = w9State.customers
    ∧ (handleNewTransaction "d" w9Tx w9State).allTransactions
        = w9Tx :: w9State.allTransactions := by
  refine handleNewTransaction_missing_reference "d" w9Tx w9State 0 w1Item
    rfl rfl ?_
  intro cid hcid hne c hcmem
  injection hcid with h
  subst h
  have hcmem2 : c = w8Cust := List.mem_singleton.mp hcmem
  subst hcmem2
  show w8Cust.id ≠ "nobody"
  decide

def c5Item : InventoryItem :=
  { id := "i1"
    name := "Feed B"
    price := 8
    costPrice := 5
    weight := 2
    stock := [("Main", 1)]
    stockWeight := [("Main", 2)]
    lowStockThreshold := 0
    expirationDates := [] }

/-- Counterexample to C5 as stated: with the admin flag off the computed
inventory valuation is forced to 0, while the claimed sum over items of
(total on-hand × cost price) is 5 — the valuation formula does NOT hold for
every value of the admin flag. -/
theorem inventoryValue_nonadmin_counterexample :
    (salesMetrics [] [c5Item] ["Main"] false).inventoryValue = 0
    ∧ ([c5Item].map (fun item =>
        ((["Main"].map (fun branch => recGet item.stock branch)).sum)
          * item.costPrice)).sum = 5
    ∧ (0 : ℚ) ≠ 5 := by
  refine ⟨rfl, ?_, by norm_num⟩
  have h : recGet c5Item.stock "Main" = 1 := by
    simp [c5Item, recGet, List.lookup]
  simp only [List.map_cons, List.map_nil, List.sum_cons, List.sum_nil, h]
  have hc : c5Item.costPrice = 5 := rfl
  rw [hc]
  norm_num

def c4Item : InventoryItem :=
  { id := "m1"
    name := "Med"
    price := 10
    costPrice := 4
    weight := 1
    stock := [("Main", 3)]
    stockWeight := [("Main", 3)]
    lowStockThreshold := 0
    expirationDates := [("Main", [-172800000, 864000000])] }

theorem c4_days_expired : daysUntilExpiration 0 (-172800000) = -2 := by
  unfold daysUntilExpiration
  rw [Int.ceil_eq_iff]
  norm_num

theorem c4_days_ten : daysUntilExpiration 0 864000000 = 10 := by
  unfold daysUntilExpiration
  rw [Int.ceil_eq_iff]
  norm_num

/-- Counterexample to C4 as stated: an item carrying one already-expired
batch (days = −2) and one batch 10 days out at branch "Main". The nearest
(minimum) days-until-expiration over ALL batches is −2, outside the window
`0 < days ≤ 20`, so the claim says the pair does not alert — yet the scan
produces an alert (with daysLeft 10, the minimum among in-window batches
only). -/
theorem expired_batch_counterexample :
    expirationAlerts 0 [c4Item] ["Main"]
        = [{ id := "m1-Main", name := "Med", branch := "Main", daysLeft := 10,
             alertType := "expiration" }]
    ∧ c4Item.expirationDates.lookup "Main" = some [-172800000, 864000000]
    ∧ minOfList 0 (([-172800000, 864000000] : List ℤ).map
        (fun date => daysUntilExpiration 0 date)) = -2
    ∧ ¬((-2 : ℤ) ≤ 20 ∧ 0 < (-2 : ℤ)) := by
  refine ⟨?_, rfl, ?_, by omega⟩
  · unfold expirationAlerts
    simp only [List.foldl_cons, List.foldl_nil, List.nil_append]
    show List.filterMap (fun branch => branchExpirationAlert 0 c4Item branch)
      ["Main"] = _
    have halert : branchExpirationAlert 0 c4Item "Main"
        = some { id := "m1-Main", name := "Med", branch := "Main",
                 daysLeft := 10, alertType := "expiration" } := by
      unfold branchExpirationAlert
      have hlook : c4Item.expirationDates.lookup "Main"
          = some [-172800000, 864000000] := rfl
      rw [hlook]
      simp only [List.filter_cons, List.filter_nil, c4_days_expired,
        c4_days_ten]
      norm_num [minOfList]
      exact ⟨rfl, rfl, c4_days_ten⟩
    simp [List.filterMap, halert]
  · simp only [List.map_cons, List.map_nil, c4_days_expired, c4_days_ten,
      minOfList, List.foldl_cons, List.foldl_nil]
    omega
